/-
Verification development for the AnaPrev frame-acquisition pipeline
(src/AnaPrev/anaprev.py).

Shallow embedding of the components the specification claims are about:
the FrameBuffer container, the hardware-acceleration detection, the
ffprobe metadata fallback of VideoProcessor init, the frame read loop
(VideoProcessor.process_frames), the progress-monitor tick
(VideoProcessor.monitor_progress), the run dispatch (VideoProcessor.run),
and the attribute sets touched by VideoProcessor init and seek.

Modelling conventions:
- mutex acquisition outcomes (QMutex.tryLock) are explicit Bool inputs;
- the decoder subprocess is modelled by the list of byte blocks its
  standard output yields, one block per read call (the empty list means
  the next read returns zero bytes, i.e. the process has exited or hit
  end of stream);
- Python None for max_size is Option.none, a numeric max_size of k is
  some k, and Python truthiness of max_size (None and 0 both falsy) is
  transcribed literally in FrameBuffer.atCapacity;
- floats are modelled by exact rationals.
-/
import Mathlib

namespace AnaPrev

variable {α : Type}

/-- FrameBuffer (anaprev.py lines 180-213): ordered sequence of frames
plus the optional size bound; the QMutex itself is modelled by the
explicit acquisition outcome passed to each operation. Frame contents
never influence control flow, so the frame type is a parameter. -/
structure FrameBuffer (α : Type) where
  buffer : List α
  max_size : Option Nat

/-- Transcription of the Python condition
`if self.max_size and len(self.buffer) >= self.max_size` (line 191):
max_size must be truthy (not None and not 0) and the length must have
reached it. -/
def FrameBuffer.atCapacity (fb : FrameBuffer α) : Bool :=
  match fb.max_size with
  | none => false
  | some k => k != 0 && decide (k ≤ fb.buffer.length)

/-- FrameBuffer.push (lines 186-197). `acquired` is the outcome of
`self.mutex.tryLock(1000)`: on timeout the method returns False with the
buffer untouched; on success, at capacity it first pops index 0 (the
oldest frame) and then appends, returning True. -/
def FrameBuffer.push (fb : FrameBuffer α) (acquired : Bool) (frame : α) :
    Bool × FrameBuffer α :=
  if acquired then
    if fb.atCapacity then (true, { fb with buffer := fb.buffer.tail ++ [frame] })
    else (true, { fb with buffer := fb.buffer ++ [frame] })
  else (false, fb)

/-- FrameBuffer.get_latest (lines 199-208): None on lock timeout or when
the buffer is empty, otherwise the last element. -/
def FrameBuffer.get_latest (fb : FrameBuffer α) (acquired : Bool) : Option α :=
  if acquired then fb.buffer.getLast? else none

/-- FrameBuffer.clear (lines 210-213): unconditional blocking acquire,
then the sequence is emptied. -/
def FrameBuffer.clear (fb : FrameBuffer α) : FrameBuffer α :=
  { fb with buffer := [] }

/-- Sequence of successful pushes (every tryLock succeeds), as performed
by the read loop when the producer is uncontended. -/
def FrameBuffer.pushAll (fb : FrameBuffer α) (frames : List α) : FrameBuffer α :=
  frames.foldl (fun b f => (b.push true f).2) fb

/-- Raw byte block returned by one `process.stdout.read(frame_size)`
call; only its length matters to the control flow. -/
abbrev Block := List Nat

/-- The mutable VideoProcessor fields read and written by the frame read
loop and the monitor: the running flag, the pending seek target
(`self.seek_position`, where -1 is the consumed/none value written by the
monitor at line 519), and the frame buffer. -/
structure VP where
  running : Bool
  seekPos : Int
  frameBuffer : FrameBuffer Block

/-- VideoProcessor.seek (lines 318-322): records the pending target under
the seek mutex and returns; it does not touch the subprocess. -/
def VP.seek (vp : VP) (position_ms : Int) : VP :=
  { vp with seekPos := position_ms }

/-- Observable events of one read-loop iteration: the updated state, the
remaining output of the (possibly replaced) decoder process, the seek
target of a respawn if one happened, the push call and its result if a
full frame was read, whether frame_ready was emitted, and whether the
loop exited. -/
structure IterResult where
  vp : VP
  procOut : List Block
  spawned : Option Int
  pushResult : Option Bool
  signaled : Bool
  exited : Bool

/-- One iteration of the while loop of VideoProcessor.process_frames
(lines 530-579). `respawn` gives the stdout stream of a freshly spawned
decoder for a given seek target; `acquired` is the tryLock outcome of the
push. Faithful points: when the pending target is nonnegative the current
process is terminated and a replacement spawned with the -ss flag, and
the target is NOT reset (no write to seek_position occurs in this loop);
a zero-length or short read breaks out of the loop (the stderr drain at
lines 566-568 is diagnostic only and does not change control flow); on a
full frame the push result is ignored and frame_ready is emitted
unconditionally (lines 576-579). -/
def readIter (w h : Nat) (respawn : Int → List Block) (acquired : Bool)
    (vp : VP) (procOut : List Block) : IterResult :=
  if vp.running then
    let spawned : Option Int := if vp.seekPos ≥ 0 then some vp.seekPos else none
    let procOut1 := if vp.seekPos ≥ 0 then respawn vp.seekPos else procOut
    match procOut1 with
    | [] => ⟨vp, [], spawned, none, false, true⟩
    | blk :: rest =>
      if blk.length < w * h * 3 then ⟨vp, rest, spawned, none, false, true⟩
      else
        let pr := FrameBuffer.push vp.frameBuffer acquired blk
        ⟨{ vp with frameBuffer := pr.2 }, rest, spawned, some pr.1, true, false⟩
  else ⟨vp, procOut, none, none, false, true⟩

/-- Accumulated observable trace of a process_frames run: seek targets of
respawns, results of the push calls, and the number of frame_ready
emissions. -/
structure Trace where
  spawns : List Int
  pushes : List Bool
  signals : Nat

/-- Extension of a trace by the events of one read-loop iteration. -/
def stepTrace (tr : Trace) (r : IterResult) : Trace :=
  ⟨tr.spawns ++ r.spawned.toList, tr.pushes ++ r.pushResult.toList,
   tr.signals + (if r.signaled then 1 else 0)⟩

/-- VideoProcessor.process_frames (lines 525-588) as a fueled loop; none
means the fuel ran out before the loop finished. The source returns True
whenever the while loop ends (by break on a short read or by the running
flag); False is returned only from the except branch, and no statement of
the embedded fragment raises, so the returned Bool is true. -/
def processFrames (w h : Nat) (respawn : Int → List Block) (acquired : Bool) :
    Nat → VP → List Block → Trace → Option (Bool × VP × Trace)
  | 0, _, _, _ => none
  | fuel + 1, vp, procOut, tr =>
    if (readIter w h respawn acquired vp procOut).exited then
      some (true, (readIter w h respawn acquired vp procOut).vp,
        stepTrace tr (readIter w h respawn acquired vp procOut))
    else
      processFrames w h respawn acquired fuel
        (readIter w h respawn acquired vp procOut).vp
        (readIter w h respawn acquired vp procOut).procOut
        (stepTrace tr (readIter w h respawn acquired vp procOut))

/-- Dispatch logic of VideoProcessor.run (lines 393-405), given which
acceleration method was detected and the Bool returned by the hardware
attempt (run_with_hw_accel returns process_frames result, or False from
its except branch). Result: (hardware path attempted, software path
entered). The software fallback runs only when the hardware attempt
returned False while the running flag was still set. -/
def runDispatch (hw_method : Option String) (running : Bool) (hwResult : Bool) :
    Bool × Bool :=
  match hw_method with
  | some _ => if !hwResult && running then (true, true) else (true, false)
  | none => (false, true)

/-- One tick of VideoProcessor.monitor_progress (lines 500-523): computes
the wall-clock position from the origin timestamp, then, when a seek is
pending, rebases the origin to now minus target/1000 and resets the
pending target to -1. Returns the new state, the new origin timestamp,
and the emitted position in milliseconds. -/
def VP.monitorTick (vp : VP) (now start_time : ℚ) : VP × ℚ × Int :=
  if vp.seekPos ≥ 0 then
    ({ vp with seekPos := -1 },
     (now - (vp.seekPos : ℚ) / 1000, ⌊(now - start_time) * 1000⌋))
  else (vp, (start_time, ⌊(now - start_time) * 1000⌋))

/-- Rounding to three decimal places, as the %.3f formatting of the -ss
argument does (line 545). -/
def round3 (q : ℚ) : ℚ := (⌊q * 1000 + 1 / 2⌋ : ℚ) / 1000

/-- The value passed to the decoder -ss flag for a seek target in
milliseconds: seek_pos / 1000.0 formatted with three decimals. -/
def ssArgSeconds (position_ms : Int) : ℚ := round3 ((position_ms : ℚ) / 1000)

/-- Fixed preference order scanned by detect_hw_acceleration (line 303). -/
def hwPriority : List String := ["cuda", "amf", "qsv", "d3d11va", "dxva2"]

/-- The for loop of lines 303-306: first entry of the priority list that
is among the available methods. -/
def scanPriority : List String → List String → Option String
  | [], _ => none
  | m :: ms, avail => if m ∈ avail then some m else scanPriority ms avail

/-- Selection part of detect_hw_acceleration (lines 299-316) given the
parsed list of available methods: first priority match, else the first
available entry, else (empty list) None. -/
def selectHwMethod (avail : List String) : Option String :=
  if avail = [] then none
  else
    match scanPriority hwPriority avail with
    | some m => some m
    | none => avail.head?

/-- Parsing of the hwaccels command output (lines 293-297): strip, split
on newlines, drop the first line when more than one is present (the
header), strip each entry and keep the non-empty ones. -/
def parseHwaccels (out : String) : List String :=
  let ls := out.trim.splitOn "\n"
  let ls1 := if ls.length > 1 then ls.tail else ls
  (ls1.map String.trim).filter (fun l => l != "")

/-- detect_hw_acceleration (lines 276-316). `enabled` is the
hw_acceleration_enabled flag; `cmdOutput` is the stdout of the
enumeration command, none when the command raised (SubprocessError or
FileNotFoundError), in which case the except branch falls through to
return None. -/
def detect_hw_acceleration (enabled : Bool) (cmdOutput : Option String) :
    Option String :=
  if enabled then
    match cmdOutput with
    | none => none
    | some out => selectHwMethod (parseHwaccels out)
  else none

/-- Metadata fields of the probed video stream as used by
VideoProcessor init (lines 237-244). Each field is none when the key is
absent from the ffprobe output or its value fails to convert (both raise
in the source and land in the same except branch). nb_frames is the
frame-count field that ffprobe can report; the source never reads it, and
it is carried here only so that claims about a frame-count-based duration
estimate can be stated. -/
structure ProbeInfo where
  width : Option Int
  height : Option Int
  r_frame_rate : Option String
  duration : Option ℚ
  nb_frames : Option Nat

/-- Decimal digit value of a character, none when it is not a digit. -/
def charDigit (c : Char) : Option Nat :=
  if c.isDigit then some (c.toNat - 48) else none

/-- Accumulating decimal parse over characters; fails on any
non-digit. -/
def digitsToNatAux : List Char → Nat → Option Nat
  | [], acc => some acc
  | c :: cs, acc =>
    match charDigit c with
    | some d => digitsToNatAux cs (acc * 10 + d)
    | none => none

/-- Python int literal parse of a non-empty all-digit token. -/
def parseNatToken (cs : List Char) : Option Nat :=
  match cs with
  | [] => none
  | _ => digitsToNatAux cs 0

/-- Split of a character list at every slash, the list analogue of the
Python str.split of the source grammar. -/
def splitOnSlash : List Char → List Char → List (List Char)
  | [], acc => [acc.reverse]
  | c :: cs, acc =>
    if c = '/' then acc.reverse :: splitOnSlash cs []
    else splitOnSlash cs (c :: acc)

/-- The eval of r_frame_rate (line 243) restricted to the grammar that
field carries: a decimal integer, or two decimal integers separated by a
slash (true division). Any other input raises in the source (NameError,
SyntaxError or ZeroDivisionError), modelled as none. -/
def parseRational (s : String) : Option ℚ :=
  match splitOnSlash s.data [] with
  | [a] => (parseNatToken a).map (fun n => (n : ℚ))
  | [a, b] =>
    match parseNatToken a, parseNatToken b with
    | some n, some d => if d = 0 then none else some ((n : ℚ) / (d : ℚ))
    | _, _ => none
  | _ => none

/-- Video metadata kept by VideoProcessor: width, height, frame rate,
duration in milliseconds. -/
structure VideoSpec where
  width : Int
  height : Int
  frame_rate : ℚ
  duration : ℚ

/-- Fallback values of the except branch at lines 249-255:
640 x 480 at 30 fps, 60000 ms. -/
def defaultSpec : VideoSpec := ⟨640, 480, 30, 60000⟩

/-- Metadata part of VideoProcessor init (lines 234-255): the try block
reads width, height, r_frame_rate (through eval) and duration (scaled to
milliseconds); if any of them is absent or malformed the whole block is
abandoned and every field takes its fallback value. -/
def probeSpec (info : ProbeInfo) : VideoSpec :=
  match info.width, info.height, info.r_frame_rate.bind parseRational,
      info.duration with
  | some w, some h, some fr, some d => ⟨w, h, fr, d * 1000⟩
  | _, _, _, _ => defaultSpec

/-- Attribute names assigned by VideoProcessor init (lines 221-274),
the union of the try and except branches (width, height, frame_rate and
duration are assigned on every path). -/
def initAssignedAttrs : List String :=
  ["logger", "video_path", "running", "width", "height", "frame_rate",
   "duration", "frame_buffer", "preload_complete", "frames_loaded",
   "total_frames", "hw_accel_method", "hw_acceleration_enabled"]

/-- Attribute names read by VideoProcessor.seek (lines 318-322) before
any write: the body is self.seek_mutex.lock(); ... -/
def seekReadAttrs : List String := ["seek_mutex"]

/- ------------------------------------------------------------------ -/
/- Helper lemmas                                                      -/
/- ------------------------------------------------------------------ -/

theorem push_succ_buffer_lt (buf : List α) (k : Nat) (f : α)
    (h : buf.length < k) :
    (FrameBuffer.push ⟨buf, some k⟩ true f).2 = ⟨buf ++ [f], some k⟩ := by
  simp [FrameBuffer.push, FrameBuffer.atCapacity, Nat.not_le.mpr h]

theorem push_succ_buffer_full (buf : List α) (k : Nat) (f : α)
    (hk : 1 ≤ k) (h : k ≤ buf.length) :
    (FrameBuffer.push ⟨buf, some k⟩ true f).2 = ⟨buf.tail ++ [f], some k⟩ := by
  have hk0 : k ≠ 0 := Nat.one_le_iff_ne_zero.mp hk
  simp [FrameBuffer.push, FrameBuffer.atCapacity, h, hk0]

theorem pushAll_bounded_content (k : Nat) (hk : 1 ≤ k) :
    ∀ (frames buf : List α), buf.length ≤ k →
      (FrameBuffer.pushAll ⟨buf, some k⟩ frames).buffer
        = (buf ++ frames).drop (buf.length + frames.length - k) := by
  intro frames
  induction frames with
  | nil =>
    intro buf hb
    simp [FrameBuffer.pushAll, Nat.sub_eq_zero_of_le hb]
  | cons f rest ih =>
    intro buf hb
    rcases Nat.lt_or_ge buf.length k with hlt | hge
    · have hstep : (FrameBuffer.push ⟨buf, some k⟩ true f).2 = ⟨buf ++ [f], some k⟩ :=
        push_succ_buffer_lt buf k f hlt
      have hlen : (buf ++ [f]).length ≤ k := by
        simp only [List.length_append, List.length_cons, List.length_nil]
        omega
      have := ih (buf ++ [f]) hlen
      simp only [FrameBuffer.pushAll, List.foldl_cons] at *
      rw [hstep, this]
      have harith : (buf ++ [f]).length + rest.length - k
          = buf.length + (f :: rest).length - k := by
        simp only [List.length_append, List.length_cons, List.length_nil]
        omega
      rw [harith, List.append_assoc, List.singleton_append]
    · have heq : buf.length = k := Nat.le_antisymm hb hge
      have hstep : (FrameBuffer.push ⟨buf, some k⟩ true f).2
          = ⟨buf.tail ++ [f], some k⟩ :=
        push_succ_buffer_full buf k f hk hge
      cases buf with
      | nil => simp at heq; omega
      | cons b bt =>
        have hlen : ((b :: bt).tail ++ [f]).length ≤ k := by
          simp only [List.tail_cons, List.length_append, List.length_cons,
            List.length_nil]
          simp only [List.length_cons] at heq
          omega
        have := ih ((b :: bt).tail ++ [f]) hlen
        simp only [FrameBuffer.pushAll, List.foldl_cons] at *
        rw [hstep, this]
        simp only [List.tail_cons, List.length_append, List.length_cons,
          List.length_nil] at *
        have h1 : bt.length + 1 + rest.length - k = rest.length := by omega
        have h2 : bt.length + 1 + (rest.length + 1) - k = rest.length + 1 := by
          omega
        rw [h1, h2, List.append_assoc, List.singleton_append,
          List.cons_append, List.drop_succ_cons]

theorem pushAll_unbounded_buffer (ms : Option Nat)
    (hms : ms = none ∨ ms = some 0) :
    ∀ (frames buf : List α),
      (FrameBuffer.pushAll ⟨buf, ms⟩ frames).buffer = buf ++ frames := by
  intro frames
  induction frames with
  | nil => intro buf; simp [FrameBuffer.pushAll]
  | cons f rest ih =>
    intro buf
    have hcap : (FrameBuffer.atCapacity (⟨buf, ms⟩ : FrameBuffer α)) = false := by
      rcases hms with h | h <;> simp [FrameBuffer.atCapacity, h]
    have hstep : (FrameBuffer.push ⟨buf, ms⟩ true f).2 = ⟨buf ++ [f], ms⟩ := by
      simp [FrameBuffer.push, hcap]
    simp only [FrameBuffer.pushAll, List.foldl_cons] at *
    rw [hstep, ih (buf ++ [f]), List.append_assoc, List.singleton_append]

theorem scanPriority_eq_find (pri avail : List String) :
    scanPriority pri avail = pri.find? (fun m => decide (m ∈ avail)) := by
  induction pri with
  | nil => rfl
  | cons m ms ih =>
    by_cases hm : m ∈ avail
    · simp [scanPriority, List.find?_cons, hm]
    · simp [scanPriority, List.find?_cons, hm, ih]

theorem monitorTick_pending (vp : VP) (now st : ℚ) (h : 0 ≤ vp.seekPos) :
    (vp.monitorTick now st).1 = { vp with seekPos := -1 }
    ∧ (vp.monitorTick now st).2.1 = now - (vp.seekPos : ℚ) / 1000 := by
  unfold VP.monitorTick
  rw [if_pos h]
  exact ⟨rfl, rfl⟩

theorem monitorTick_clear (vp : VP) (now st : ℚ) (h : vp.seekPos < 0) :
    (vp.monitorTick now st).1 = vp ∧ (vp.monitorTick now st).2.1 = st := by
  unfold VP.monitorTick
  rw [if_neg (by omega)]
  exact ⟨rfl, rfl⟩

theorem ssArgSeconds_exact (T : Int) : ssArgSeconds T * 1000 = (T : ℚ) := by
  unfold ssArgSeconds round3
  have h1 : ((T : ℚ) / 1000) * 1000 = (T : ℚ) :=
    div_mul_cancel₀ _ (by norm_num)
  rw [h1]
  have h2 : ⌊(T : ℚ) + 1 / 2⌋ = T := by
    rw [Int.floor_int_add]
    norm_num
  rw [h2]
  exact div_mul_cancel₀ _ (by norm_num)

theorem readIter_spawned_of_seek (w h : Nat) (respawn : Int → List Block)
    (acquired : Bool) (vp : VP) (procOut : List Block)
    (hrun : vp.running = true) (hpos : 0 ≤ vp.seekPos) :
    (readIter w h respawn acquired vp procOut).spawned = some vp.seekPos
    ∧ (readIter w h respawn acquired vp procOut).vp.seekPos = vp.seekPos := by
  unfold readIter
  rw [hrun]
  simp only [if_true, ge_iff_le, hpos, if_pos]
  cases respawn vp.seekPos with
  | nil => exact ⟨rfl, rfl⟩
  | cons blk rest =>
    by_cases hblk : blk.length < w * h * 3
    · simp [hblk]
    · simp [hblk]

theorem readIter_signal_count (w h : Nat) (respawn : Int → List Block)
    (acquired : Bool) (vp : VP) (procOut : List Block) :
    (if (readIter w h respawn acquired vp procOut).signaled then 1 else 0)
      = (readIter w h respawn acquired vp procOut).pushResult.toList.length := by
  unfold readIter
  cases hr : vp.running
  · simp
  · simp only [if_true]
    cases (if vp.seekPos ≥ 0 then respawn vp.seekPos else procOut) with
    | nil => simp
    | cons blk rest =>
      by_cases hblk : blk.length < w * h * 3
      · simp [hblk]
      · simp [hblk]

theorem stepTrace_invariant (tr : Trace) (w h : Nat)
    (respawn : Int → List Block) (acquired : Bool) (vp : VP)
    (procOut : List Block) (h0 : tr.signals = tr.pushes.length) :
    (stepTrace tr (readIter w h respawn acquired vp procOut)).signals
      = (stepTrace tr (readIter w h respawn acquired vp procOut)).pushes.length := by
  have hsig := readIter_signal_count w h respawn acquired vp procOut
  unfold stepTrace
  simp only [List.length_append]
  rw [h0, hsig]

/- ------------------------------------------------------------------ -/
/- Claim theorems                                                     -/
/- ------------------------------------------------------------------ -/

/-- C5: for a FrameBuffer bounded with max_size = K (K at least 1) and
any sequence of more than K successful pushes starting from the empty
buffer: the final content is exactly the last K pushed frames in arrival
order, get_latest returns the most recently pushed frame, every prefix of
the push sequence leaves at most K frames in the buffer, and a single
push at capacity evicts exactly the element at index 0 before
appending. -/
theorem frameBuffer_bounded_fifo (k : Nat) (frames : List Nat)
    (hk : 1 ≤ k) (hn : k < frames.length) :
    (FrameBuffer.pushAll ⟨[], some k⟩ frames).buffer
        = frames.drop (frames.length - k)
    ∧ (FrameBuffer.pushAll ⟨[], some k⟩ frames).get_latest true
        = frames.getLast?
    ∧ (∀ p : Nat,
        (FrameBuffer.pushAll ⟨[], some k⟩ (frames.take p)).buffer.length ≤ k)
    ∧ (∀ (buf : List Nat) (f : Nat), buf.length = k →
        (FrameBuffer.push ⟨buf, some k⟩ true f).2.buffer = buf.tail ++ [f]) := by
  have hcontent := pushAll_bounded_content (α := Nat) k hk frames []
    (by simp)
  simp only [List.nil_append, List.length_nil, Nat.zero_add] at hcontent
  refine ⟨hcontent, ?_, ?_, ?_⟩
  · have hne : frames.drop (frames.length - k) ≠ [] := by
      intro hcontra
      have := congrArg List.length hcontra
      simp only [List.length_drop, List.length_nil] at this
      omega
    rw [FrameBuffer.get_latest, if_pos rfl, hcontent]
    conv_rhs => rw [← List.take_append_drop (frames.length - k) frames]
    exact (List.getLast?_append_of_ne_nil _ hne).symm
  · intro p
    have hc := pushAll_bounded_content (α := Nat) k hk (frames.take p) []
      (by simp)
    simp only [List.nil_append, List.length_nil, Nat.zero_add] at hc
    have := congrArg List.length hc
    simp only [List.length_drop] at this
    omega
  · intro buf f hbk
    rw [push_succ_buffer_full buf k f hk (le_of_eq hbk.symm)]

theorem frameBuffer_bounded_fifo_witness :
    (FrameBuffer.pushAll ⟨[], some 2⟩ [10, 20, 30, 40, 50]).buffer = [40, 50]
    ∧ (FrameBuffer.pushAll ⟨[], some 2⟩ [10, 20, 30, 40, 50]).get_latest true
        = some 50 :=
  ⟨(frameBuffer_bounded_fifo 2 [10, 20, 30, 40, 50] (by decide) (by decide)).1,
   (frameBuffer_bounded_fifo 2 [10, 20, 30, 40, 50] (by decide)
      (by decide)).2.1⟩

/-- C7: when the tryLock of push times out, push returns false and the
buffer contents and size are exactly as before the call. -/
theorem push_timeout_drops (fb : FrameBuffer Nat) (frame : Nat) :
    FrameBuffer.push fb false frame = (false, fb)
    ∧ (FrameBuffer.push fb false frame).2.buffer = fb.buffer
    ∧ (FrameBuffer.push fb false frame).2.buffer.length = fb.buffer.length :=
  ⟨rfl, rfl, rfl⟩

/-- C10: a FrameBuffer constructed with max_size = 0 behaves exactly as
the unbounded (None) configuration: no eviction ever occurs, all pushed
frames are retained in order, and already a single push makes the size
exceed the nominal bound 0. -/
theorem frameBuffer_zero_maxsize_unbounded (frames : List Nat) :
    (FrameBuffer.pushAll ⟨[], some 0⟩ frames).buffer = frames
    ∧ (FrameBuffer.pushAll ⟨[], some 0⟩ frames).buffer
        = (FrameBuffer.pushAll ⟨[], none⟩ frames).buffer
    ∧ 0 < (FrameBuffer.pushAll ⟨[], some 0⟩ [7]).buffer.length := by
  have h0 := pushAll_unbounded_buffer (α := Nat) (some 0) (Or.inr rfl) frames []
  have hn := pushAll_unbounded_buffer (α := Nat) none (Or.inl rfl) frames []
  have h1 := pushAll_unbounded_buffer (α := Nat) (some 0) (Or.inr rfl) [7] []
  simp only [List.nil_append] at h0 hn h1
  refine ⟨h0, by rw [h0, hn], by rw [h1]; simp⟩

/-- C1 counterexample: with a pending seek target of 5000 ms, one read
loop iteration respawns the decoder but leaves the pending target set
(it is not reset to the none value -1), so the very next iteration
respawns again — a single seek causes more than one respawn by the read
loop, and the read loop never performs the reset the claim states. -/
theorem seek_double_respawn :
    (readIter 1 1 (fun _ => [[0, 0, 0]]) true (VP.mk true 5000 ⟨[], none⟩)
        []).spawned = some 5000
    ∧ (readIter 1 1 (fun _ => [[0, 0, 0]]) true (VP.mk true 5000 ⟨[], none⟩)
        []).vp.seekPos ≠ -1
    ∧ (readIter 1 1 (fun _ => [[0, 0, 0]]) true
        ((readIter 1 1 (fun _ => [[0, 0, 0]]) true (VP.mk true 5000 ⟨[], none⟩)
          []).vp)
        ((readIter 1 1 (fun _ => [[0, 0, 0]]) true (VP.mk true 5000 ⟨[], none⟩)
          []).procOut)).spawned = some 5000 :=
  ⟨rfl, by decide, rfl⟩

/-- C1 (amended): seek(T) records the pending target; every read loop
iteration that observes a nonnegative pending target terminates the
current decoder and spawns a replacement whose -ss flag carries T/1000
seconds (exact at millisecond precision under the three-decimal
formatting), but the read loop does NOT reset the target; the progress
monitor resets it to -1 exactly once at its next tick (a second tick
changes neither the state nor the rebased origin), so one seek(T) can
cause several respawns by the read loop until that tick. -/
theorem seek_respawn_protocol (vp : VP) (T : Int) (w h : Nat)
    (respawn : Int → List Block) (acquired : Bool) (procOut : List Block)
    (now start_time now2 : ℚ) (hT : 0 ≤ T) (hrun : vp.running = true) :
    (vp.seek T).seekPos = T
    ∧ (readIter w h respawn acquired (vp.seek T) procOut).spawned = some T
    ∧ (readIter w h respawn acquired (vp.seek T) procOut).vp.seekPos = T
    ∧ ssArgSeconds T * 1000 = (T : ℚ)
    ∧ ((vp.seek T).monitorTick now start_time).1.seekPos = -1
    ∧ ((vp.seek T).monitorTick now start_time).2.1 = now - (T : ℚ) / 1000
    ∧ (((vp.seek T).monitorTick now start_time).1.monitorTick now2
          ((vp.seek T).monitorTick now start_time).2.1).1
        = ((vp.seek T).monitorTick now start_time).1
    ∧ (((vp.seek T).monitorTick now start_time).1.monitorTick now2
          ((vp.seek T).monitorTick now start_time).2.1).2.1
        = ((vp.seek T).monitorTick now start_time).2.1 := by
  have hrun1 : (vp.seek T).running = true := hrun
  have hpos1 : 0 ≤ (vp.seek T).seekPos := hT
  have hiter := readIter_spawned_of_seek w h respawn acquired (vp.seek T)
    procOut hrun1 hpos1
  have htick := monitorTick_pending (vp.seek T) now start_time hpos1
  have hcleared : ((vp.seek T).monitorTick now start_time).1.seekPos = -1 := by
    rw [htick.1]
  have htick2 := monitorTick_clear ((vp.seek T).monitorTick now start_time).1
    now2 ((vp.seek T).monitorTick now start_time).2.1 (by omega)
  exact ⟨rfl, hiter.1, hiter.2, ssArgSeconds_exact T, hcleared,
    htick.2, htick2.1, htick2.2⟩

theorem seek_respawn_protocol_witness :
    (readIter 1 1 (fun _ => [[0, 0, 0]]) true
        ((VP.mk true (-1) ⟨[], none⟩).seek 2500) []).spawned = some 2500
    ∧ ssArgSeconds 2500 * 1000 = (2500 : ℚ) :=
  ⟨(seek_respawn_protocol (VP.mk true (-1) ⟨[], none⟩) 2500 1 1
      (fun _ => [[0, 0, 0]]) true [] 0 0 0 (by decide) rfl).2.1,
   (seek_respawn_protocol (VP.mk true (-1) ⟨[], none⟩) 2500 1 1
      (fun _ => [[0, 0, 0]]) true [] 0 0 0 (by decide) rfl).2.2.2.1⟩

/-- C2 counterexample: an accelerated decoder subprocess that exits
non-zero having produced no output gives an empty stdout stream; the
read loop breaks on the zero-byte read and process_frames returns True
(zero frames delivered), so run() sees success and never enters the
software-decoding path — no respawn without the acceleration flag
happens. -/
theorem hw_failure_no_fallback_cex :
    processFrames 1 1 (fun _ => []) true 1 (VP.mk true (-1) ⟨[], none⟩) []
        ⟨[], [], 0⟩ = some (true, VP.mk true (-1) ⟨[], none⟩, ⟨[], [], 0⟩)
    ∧ (runDispatch (some "cuda") true true).2 = false
    ∧ runDispatch (some "cuda") true true ≠ (true, true) :=
  ⟨rfl, rfl, by decide⟩

/-- C2 (amended): the pipeline falls back to software decoding only when
the hardware attempt returns False, which the source produces only from
an exception during spawn or frame processing; a hardware decoder run
whose output ends before one full frame (in particular a subprocess that
always exits non-zero producing nothing) makes process_frames return True
with the state and trace unchanged, so run() does not respawn in software
mode and no frames are delivered. -/
theorem hw_exit_no_fallback (w h : Nat) (respawn : Int → List Block)
    (acquired : Bool) (fuel : Nat) (vp : VP) (out : List Block) (tr : Trace)
    (m : String) (hrun : vp.running = true) (hseek : vp.seekPos < 0)
    (hout : ∀ b, out.head? = some b → b.length < w * h * 3) :
    processFrames w h respawn acquired (fuel + 1) vp out tr
        = some (true, vp, tr)
    ∧ runDispatch (some m) true true = (true, false)
    ∧ runDispatch (some m) true false = (true, true) := by
  refine ⟨?_, rfl, rfl⟩
  have hpos : ¬ (vp.seekPos ≥ 0) := by omega
  have hiter : readIter w h respawn acquired vp out
      = ⟨vp, out.tail, none, none, false, true⟩ := by
    cases out with
    | nil => simp [readIter, hrun, hpos]
    | cons b rest =>
      have hb : b.length < w * h * 3 := hout b rfl
      simp [readIter, hrun, hpos, hb]
  simp only [processFrames, hiter]
  simp [stepTrace]

theorem hw_exit_no_fallback_witness :
    processFrames 2 2 (fun _ => [[1]]) true 1 (VP.mk true (-1) ⟨[], none⟩)
        [] ⟨[], [], 0⟩ = some (true, VP.mk true (-1) ⟨[], none⟩, ⟨[], [], 0⟩) :=
  (hw_exit_no_fallback 2 2 (fun _ => [[1]]) true 0
    (VP.mk true (-1) ⟨[], none⟩) [] ⟨[], [], 0⟩ "cuda" rfl (by decide)
    (fun b hb => nomatch hb)).1

/-- C3 counterexample: a full frame whose push fails the lock acquisition
(push returns false, frame dropped) still gets a frame_ready emission;
the source ignores the result of push and emits unconditionally. -/
theorem frame_ready_despite_drop :
    (readIter 1 1 (fun _ => []) false (VP.mk true (-1) ⟨[], some 8⟩)
        [[5, 5, 5]]).pushResult = some false
    ∧ (readIter 1 1 (fun _ => []) false (VP.mk true (-1) ⟨[], some 8⟩)
        [[5, 5, 5]]).signaled = true :=
  ⟨rfl, rfl⟩

/-- C3 (amended): in the frame read loop every full frame-sized block
read leads to exactly one push call and exactly one frame_ready
emission, regardless of the Bool push returns: over any completed
process_frames run the number of frame_ready emissions equals the number
of push attempts, dropped frames included. -/
theorem frame_ready_per_push (w h : Nat) (respawn : Int → List Block)
    (acquired : Bool) :
    ∀ (fuel : Nat) (vp : VP) (procOut : List Block) (tr : Trace)
      (res : Bool × VP × Trace),
      processFrames w h respawn acquired fuel vp procOut tr = some res →
      tr.signals = tr.pushes.length →
      res.2.2.signals = res.2.2.pushes.length := by
  intro fuel
  induction fuel with
  | zero =>
    intro vp procOut tr res hres h0
    simp [processFrames] at hres
  | succ n ih =>
    intro vp procOut tr res hres h0
    simp only [processFrames] at hres
    by_cases hex : (readIter w h respawn acquired vp procOut).exited = true
    · rw [if_pos hex] at hres
      injection hres with hres1
      rw [← hres1]
      exact stepTrace_invariant tr w h respawn acquired vp procOut h0
    · rw [if_neg hex] at hres
      exact ih _ _ _ _ hres
        (stepTrace_invariant tr w h respawn acquired vp procOut h0)

theorem frame_ready_per_push_witness :
    (Trace.mk [] [false, false] 2).signals
      = (Trace.mk [] [false, false] 2).pushes.length :=
  frame_ready_per_push 1 1 (fun _ => []) false 3 (VP.mk true (-1) ⟨[], none⟩)
    [[1, 1, 1], [2, 2, 2]] ⟨[], [], 0⟩
    (true, VP.mk true (-1) ⟨[], none⟩, ⟨[], [false, false], 2⟩) rfl rfl

/-- C4: VideoProcessor.seek reads self.seek_mutex, but the init of
VideoProcessor never assigns that attribute (nor seek_position nor
position_mutex), so calling seek on a freshly constructed pipeline
raises AttributeError to the caller — the entry point throws, against
the stated nothing-throws design. -/
theorem seek_reads_unassigned_attr :
    "seek_mutex" ∈ seekReadAttrs ∧ "seek_mutex" ∉ initAssignedAttrs := by
  decide

/-- C6 counterexample: a probe result whose duration is missing but whose
frame rate (25) is parseable and whose frame-count field (250) is
present: the frame-count-based estimate would be 250 / 25 seconds =
10000 ms, yet the resulting spec duration is the constant default
60000 ms, and even the successfully probed width is discarded for the
640 default — no frame-count-based estimate exists in the source. -/
theorem duration_estimate_not_used :
    (probeSpec ⟨some 1920, some 1080, some "25", none, some 250⟩).duration
        = 60000
    ∧ ((250 : ℚ) / 25) * 1000 = 10000
    ∧ (probeSpec ⟨some 1920, some 1080, some "25", none, some 250⟩).duration
        ≠ 10000
    ∧ (probeSpec ⟨some 1920, some 1080, some "25", none, some 250⟩).width
        = 640 := by
  have hd : (probeSpec ⟨some 1920, some 1080, some "25", none,
      some 250⟩).duration = 60000 := rfl
  refine ⟨rfl, by norm_num, ?_, rfl⟩
  rw [hd]
  norm_num

/-- C6 (amended): when the container duration metadata is unavailable,
the exception aborts the whole metadata block and the resulting spec is
entirely the hard-coded default (640 x 480 at 30 fps, 60000 ms duration),
whatever the other probed fields hold; no frame-count-based estimate and
no timeout-guarded second call are attempted. -/
theorem probe_duration_fallback (info : ProbeInfo)
    (h : info.duration = none) : probeSpec info = defaultSpec := by
  unfold probeSpec
  rw [h]
  cases info.width <;> cases info.height <;>
    cases info.r_frame_rate.bind parseRational <;> rfl

theorem probe_duration_fallback_witness :
    probeSpec ⟨none, none, none, none, none⟩ = defaultSpec :=
  probe_duration_fallback ⟨none, none, none, none, none⟩ rfl

/-- C8: for the enumerated set of accelerator methods, the detection
returns the first entry of the fixed priority list
[cuda, amf, qsv, d3d11va, dxva2] that is a member of the set, else the
first enumerated entry when the set is non-empty, else none; and when
the enumeration command fails (or the set is empty) the result is
none. -/
theorem hw_detect_priority (avail : List String) :
    detect_hw_acceleration true none = none
    ∧ selectHwMethod [] = none
    ∧ selectHwMethod avail
        = ((hwPriority.find? (fun m => decide (m ∈ avail))).orElse
            (fun _ => avail.head?)) := by
  refine ⟨rfl, rfl, ?_⟩
  by_cases hav : avail = []
  · subst hav
    rfl
  · unfold selectHwMethod
    rw [if_neg hav, scanPriority_eq_find]
    cases hfind : hwPriority.find? (fun m => decide (m ∈ avail)) with
    | none => simp [Option.orElse]
    | some m => simp [Option.orElse]

/-- C9: the rational frame-rate field "30000/1001" parses to the exact
rational 30000/1001, within 1/1000 of 29.97; the plain integer "25"
parses to 25; the malformed "abc" fails to parse (a ProbeError in the
taxonomy), and the failure is recovered by the documented fallback:
the resulting spec carries the default 30 fps. -/
theorem frame_rate_parsing :
    parseRational "30000/1001" = some ((30000 : ℚ) / 1001)
    ∧ |((30000 : ℚ) / 1001) - 2997 / 100| < 1 / 1000
    ∧ parseRational "25" = some 25
    ∧ parseRational "abc" = none
    ∧ (probeSpec ⟨some 1920, some 1080, some "abc", some 10, none⟩).frame_rate
        = 30 := by
  refine ⟨rfl, ?_, rfl, rfl, rfl⟩
  rw [abs_sub_lt_iff]
  constructor <;> norm_num

end AnaPrev
